import Mathlib

/-!
# Gold price backend: the HTTP layer of `server.js`

The handlers, the scheduled callback and the startup routine of `server.js` are embedded as
functions.  A JavaScript completion is an `Except JsError α`: `.ok` is a normal return (or a
resolved promise), `.error` a thrown value (or a rejected promise).  Instants are milliseconds
since the epoch (`Nat`), durations in minutes are exact rationals.
-/

namespace GoldPrice

/-! ## Values -/

/-- JavaScript `Error` as the handlers use it: only its `message` is ever read. -/
structure JsError where
  message : String
  deriving DecidableEq, Repr

/-- Modelled from the spec: `PriceRecord` of section 3; the record is built by `goldPriceService`,
whose source is not available.  The price field carries the name `server.js` reads,
`goldPricePerOunceUSD`; `fetchedAt` is the instant of the fetch that produced the record. -/
structure PriceRecord where
  goldPricePerOunceUSD : ℚ
  fetchedAt : Nat
  deriving DecidableEq, Repr

/-- Modelled from the spec: the module `goldPriceService` is required by `server.js` but its source
is not available.  This is what its read interface yields when the handlers consult it in one
synchronous turn: `getCachedData()` gives a record or absent, `getTimeSinceLastUpdate()` gives
minutes or unknown (`null`), and the attribute `lastUpdated` gives a timestamp or absent. -/
structure GoldPriceService where
  getCachedData : Option PriceRecord
  getTimeSinceLastUpdate : Option ℚ
  lastUpdated : Option Nat
  deriving DecidableEq, Repr

/-! ## The JavaScript operators used by the handlers -/

/-- Conversion `ToNumber` on a number-or-null value: `null` converts to `0`. -/
def toNumber : Option ℚ → ℚ
  | none => 0
  | some q => q

/-- Truthiness of a number-or-null value: `null` and `0` are falsy. -/
def truthy : Option ℚ → Bool
  | none => false
  | some q => decide (q ≠ 0)

/-- The expression `a || b`. -/
def jsOr (a b : Option ℚ) : Option ℚ :=
  if truthy a then a else b

/-- The expression `a - b` on number-or-null operands. -/
def jsSub (a b : Option ℚ) : ℚ :=
  toNumber a - toNumber b

/-- The function `Math.max` on two numbers. -/
def mathMax (a b : ℚ) : ℚ :=
  max a b

/-- The statement `try body catch (error) handler`. -/
def tryCatchJs {α : Type} (body : Except JsError α) (handler : JsError → Except JsError α) :
    Except JsError α :=
  match body with
  | .ok a => .ok a
  | .error e => handler e

/-! ## Responses -/

/-- Calls into `goldPriceService` made while serving a request. -/
inductive ServiceCall where
  | getCachedData
  | getTimeSinceLastUpdate
  | lastUpdated
  | updateCache
  deriving DecidableEq, Repr

/-- The `meta` object of a successful `GET /api/gold-price` response. -/
structure PriceMeta where
  lastUpdated : Option Nat
  timeSinceLastUpdate : Option ℚ
  nextUpdateIn : ℚ
  source : String
  deriving DecidableEq, Repr

/-- JSON bodies sent by the two `/api/gold-price` routes. -/
inductive PriceBody where
  | price (success : Bool) (data : Option PriceRecord) (info : Option PriceMeta)
      (message : Option String)
  | failure (success : Bool) (error : String) (message : String) (timestamp : Option Nat)
  deriving DecidableEq, Repr

/-- JSON body sent by `GET /api/status`. -/
structure StatusBody where
  service : String
  version : String
  status : String
  lastUpdated : Option Nat
  timeSinceLastUpdate : Option ℚ
  nextUpdateIn : ℚ
  cacheStatus : String
  currentPrice : Option ℚ
  deriving DecidableEq, Repr

/-- An HTTP response together with the service calls made to produce it. -/
structure Served (β : Type) where
  status : Nat
  body : β
  calls : List ServiceCall
  deriving DecidableEq, Repr

/-! ## `GET /api/gold-price` (server.js lines 40-77) -/

/-- The `try` block of the handler. -/
def getGoldPriceBody (svc : GoldPriceService) : Except JsError (Served PriceBody) :=
  let cachedData := svc.getCachedData
  match cachedData with
  | none =>
    pure
      { status := 503
        body := .failure false "Gold price data not available"
          "Service is initializing, please try again in a moment" none
        calls := [.getCachedData] }
  | some record =>
    let timeSinceLastUpdate := svc.getTimeSinceLastUpdate
    pure
      { status := 200
        body := .price true (some record)
          (some
            { lastUpdated := svc.lastUpdated
              timeSinceLastUpdate := timeSinceLastUpdate
              nextUpdateIn := mathMax 0 (jsSub (some 5) timeSinceLastUpdate)
              source := "Yahoo Finance API (Cached)" })
          none
        calls := [.getCachedData, .getTimeSinceLastUpdate, .lastUpdated] }

/-- The handler of `GET /api/gold-price`; `now` is the clock read by the `catch` block.  The body
contains no `await`: it runs within one turn of the event loop, so every read of the service in
it sees the same `svc`. -/
def getGoldPrice (svc : GoldPriceService) (now : Nat) : Except JsError (Served PriceBody) :=
  tryCatchJs (getGoldPriceBody svc) fun error =>
    pure
      { status := 500
        body := .failure false "Internal server error" error.message (some now)
        calls := [] }

/-! ## `POST /api/gold-price/update` (server.js lines 79-99) -/

/-- The handler of `POST /api/gold-price/update`.  The argument is the completion of
`await goldPriceService.updateCache()`: a rejection, or a resolution together with the service as
the handler finds it when it resumes. -/
def postGoldPriceUpdate (updateCache : Except JsError GoldPriceService) :
    Except JsError (Served PriceBody) :=
  tryCatchJs
    (do
      let svc ← updateCache
      let cachedData := svc.getCachedData
      pure
        { status := 200
          body := .price true cachedData none (some "Gold price updated successfully")
          calls := [.updateCache, .getCachedData] })
    fun error =>
      pure
        { status := 500
          body := .failure false "Failed to update gold price" error.message none
          calls := [.updateCache] }

/-! ## `GET /api/status` (server.js lines 101-116) -/

/-- The handler of `GET /api/status`. -/
def getStatus (svc : GoldPriceService) : Except JsError (Served StatusBody) :=
  let cachedData := svc.getCachedData
  let timeSinceLastUpdate := svc.getTimeSinceLastUpdate
  pure
    { status := 200
      body :=
        { service := "Gold Price Backend"
          version := "1.0.0"
          status := if cachedData.isSome then "operational" else "initializing"
          lastUpdated := svc.lastUpdated
          timeSinceLastUpdate := timeSinceLastUpdate
          nextUpdateIn := mathMax 0 (jsSub (some 5) (jsOr timeSinceLastUpdate (some 0)))
          cacheStatus := if cachedData.isSome then "warm" else "cold"
          currentPrice :=
            match cachedData with
            | some record => some record.goldPricePerOunceUSD
            | none => none }
      calls := [.getCachedData, .getTimeSinceLastUpdate, .lastUpdated] }

/-! ## The scheduled callback (server.js lines 118-122) -/

/-- The callback given to `cron.schedule`: it awaits `updateCache()` and nothing else. -/
def cronCallback (updateCache : Except JsError GoldPriceService) : Except JsError Unit := do
  let _ ← updateCache
  pure ()

/-! ## Startup (server.js lines 124-139) -/

/-- The port the server listens on. -/
def PORT : Nat := 3000

/-- Observable steps of `startServer`, in the order they happen. -/
inductive StartupStep where
  | initCalled
  | initSettled (succeeded : Bool)
  | listen (port : Nat)
  | consoleError (error : JsError)
  | processExit (code : Nat)
  deriving DecidableEq, Repr

/-- The routine `startServer`; the argument is the completion of the awaited first fetch. -/
def startServer (init : Except JsError Unit) : List StartupStep :=
  match init with
  | .ok _ => [.initCalled, .initSettled true, .listen PORT]
  | .error error => [.initCalled, .initSettled false, .consoleError error, .processExit 1]

/-! ## Reading a field back from a completion -/

/-- The `meta.nextUpdateIn` field of a `GET /api/gold-price` completion, when there is one. -/
def priceNextUpdateIn : Except JsError (Served PriceBody) → Option ℚ
  | .ok { body := .price _ _ (some info) _, .. } => some info.nextUpdateIn
  | _ => none

/-- The `nextUpdateIn` field of a `GET /api/status` completion. -/
def statusNextUpdateIn : Except JsError (Served StatusBody) → Option ℚ
  | .ok served => some served.body.nextUpdateIn
  | .error _ => none

/-! ## The cache component (spec sections 3 to 5) -/

/-- Modelled from the spec: `CacheState` of section 3, the state owned by `goldPriceService`, whose
source is not available: the current record and the instant of the last successful fetch. -/
structure CacheState where
  current : Option PriceRecord
  lastUpdated : Option Nat
  deriving DecidableEq, Repr

/-- Modelled from the spec: the PriceCache component of section 4.1, not available in source: the
cache state and the single-flight guard of section 5, a boolean scoped to the instance that is set
while an upstream call is in flight. -/
structure PriceCache where
  state : CacheState
  inFlight : Bool
  deriving DecidableEq, Repr

/-- Modelled from the spec: the cache of a fresh process, never populated and with no fetch in
flight. -/
def PriceCache.empty : PriceCache :=
  { state := { current := none, lastUpdated := none }, inFlight := false }

/-- Modelled from the spec: `getCachedData()` returns the current record or absent. -/
def PriceCache.getCachedData (c : PriceCache) : Option PriceRecord :=
  c.state.current

/-- Modelled from the spec: `getTimeSinceLastUpdate()` returns the minutes (fractional) elapsed
since `lastUpdated`, or unknown when the cache was never populated. -/
def PriceCache.getTimeSinceLastUpdate (c : PriceCache) (now : Nat) : Option ℚ :=
  match c.state.lastUpdated with
  | none => none
  | some t => some (((now : ℚ) - (t : ℚ)) / 60000)

/-- What the handlers of `server.js` observe of the cache at the instant `now`. -/
def PriceCache.view (c : PriceCache) (now : Nat) : GoldPriceService :=
  { getCachedData := c.getCachedData
    getTimeSinceLastUpdate := c.getTimeSinceLastUpdate now
    lastUpdated := c.state.lastUpdated }

/-- Reply of the upstream provider to one outbound request. -/
inductive UpstreamReply where
  | networkError (cause : String)
  | payload (price : Option ℚ)
  deriving DecidableEq, Repr

/-- Modelled from the spec: the upstream fetch algorithm of section 4.1, applied to the reply of
the single outbound request: a missing or non-positive price is a failure, otherwise a record is
built with the current timestamp. -/
def fetchGoldPrice (reply : UpstreamReply) (now : Nat) : Except JsError PriceRecord :=
  match reply with
  | .networkError cause => .error { message := cause }
  | .payload none => .error { message := "Invalid price data" }
  | .payload (some price) =>
    if 0 < price then .ok { goldPricePerOunceUSD := price, fetchedAt := now }
    else .error { message := "Invalid price data" }

/-- Modelled from the spec: a caller asks for a refresh (section 4.1, `refresh()`).  When a refresh
is already in progress no second upstream call is launched; otherwise the guard is taken and one
upstream call is launched.  The boolean tells whether a call was launched. -/
def PriceCache.requestRefresh (c : PriceCache) : PriceCache × Bool :=
  if c.inFlight then (c, false) else ({ c with inFlight := true }, true)

/-- Modelled from the spec: the in-flight upstream call completes.  On success `current` and
`lastUpdated` are replaced together; on failure the state is left as it was.  The guard is
released either way. -/
def PriceCache.settle (c : PriceCache) (reply : UpstreamReply) (now : Nat) : PriceCache :=
  match fetchGoldPrice reply now with
  | .ok record =>
    { state := { current := some record, lastUpdated := some now }, inFlight := false }
  | .error _ => { c with inFlight := false }

/-! ## The process: refresh requests interleaved with upstream completions -/

/-- Who asks for a refresh in `server.js`: the scheduled callback (line 121), the manual update
route (line 83) and the startup routine (line 128). -/
inductive Origin where
  | cronTick
  | postUpdate
  | startup
  deriving DecidableEq, Repr

/-- Modelled from the spec: one turn of the event loop that touches the cache (section 5): a
caller asks for a refresh, or the outstanding upstream call completes with a reply at `now`. -/
inductive Event where
  | refresh (origin : Origin)
  | settled (reply : UpstreamReply) (now : Nat)
  deriving DecidableEq, Repr

/-- The cache together with bookkeeping that the program itself does not keep: how many upstream
calls are outstanding, how many were ever launched, and the successful fetches, latest first, each
with the instant it was stored. -/
structure Sys where
  cache : PriceCache
  upstreamActive : Nat
  upstreamStarted : Nat
  fetches : List (PriceRecord × Nat)
  deriving DecidableEq, Repr

/-- The process right after start. -/
def Sys.initial : Sys :=
  { cache := PriceCache.empty, upstreamActive := 0, upstreamStarted := 0, fetches := [] }

/-- Modelled from the spec: the effect of one event on the cache of section 4.1, with the
bookkeeping kept alongside.  A completion can only happen while an upstream call is outstanding. -/
def Sys.step (s : Sys) : Event → Sys
  | .refresh _ =>
    let (cache, launched) := s.cache.requestRefresh
    { s with
      cache := cache
      upstreamActive := s.upstreamActive + (if launched then 1 else 0)
      upstreamStarted := s.upstreamStarted + (if launched then 1 else 0) }
  | .settled reply now =>
    if s.upstreamActive = 0 then s
    else
      { s with
        cache := s.cache.settle reply now
        upstreamActive := s.upstreamActive - 1
        fetches :=
          match fetchGoldPrice reply now with
          | .ok record => (record, now) :: s.fetches
          | .error _ => s.fetches }

/-- A whole interleaving, event by event. -/
def Sys.run (s : Sys) (events : List Event) : Sys :=
  events.foldl Sys.step s

/-! ## Invariants of the process -/

/-- The guard is set exactly while one upstream call is outstanding. -/
def Sys.GuardExact (s : Sys) : Prop :=
  s.upstreamActive = if s.cache.inFlight then 1 else 0

/-- The cache holds the record and the instant of the latest successful fetch, or nothing when
there was none. -/
def Sys.Paired (s : Sys) : Prop :=
  match s.fetches.head? with
  | none => s.cache.state = { current := none, lastUpdated := none }
  | some (record, stored) =>
    s.cache.state = { current := some record, lastUpdated := some stored }

/-! ## The schedule `*/5 * * * *` (server.js line 119) -/

/-- Five minutes, in milliseconds. -/
def cronPeriodMs : Nat := 5 * 60000

/-- The schedule fires at the instant `q`: second zero of a minute divisible by 5. -/
def cronFires (q : Nat) : Bool :=
  q % cronPeriodMs == 0

/-- The first firing of the schedule strictly after the instant `q`. -/
def nextFiring (q : Nat) : Nat :=
  (q / cronPeriodMs + 1) * cronPeriodMs

/-- Minutes from the instant `q` until the next firing of the schedule. -/
def minutesUntilNextFiring (q : Nat) : ℚ :=
  ((nextFiring q : ℚ) - (q : ℚ)) / 60000

/-- A cache holding `record`, stored at the instant `stored`, with no fetch in flight. -/
def PriceCache.warm (record : PriceRecord) (stored : Nat) : PriceCache :=
  { state := { current := some record, lastUpdated := some stored }, inFlight := false }

/-! ## Lemmas: evaluating the handlers -/

theorem getGoldPrice_of_record (svc : GoldPriceService) (now : Nat) (record : PriceRecord)
    (h : svc.getCachedData = some record) :
    getGoldPrice svc now = .ok
      { status := 200
        body := .price true (some record)
          (some
            { lastUpdated := svc.lastUpdated
              timeSinceLastUpdate := svc.getTimeSinceLastUpdate
              nextUpdateIn := mathMax 0 (jsSub (some 5) svc.getTimeSinceLastUpdate)
              source := "Yahoo Finance API (Cached)" })
          none
        calls := [.getCachedData, .getTimeSinceLastUpdate, .lastUpdated] } := by
  simp only [getGoldPrice, getGoldPriceBody, h, tryCatchJs, pure, Except.pure]

theorem getGoldPrice_of_absent (svc : GoldPriceService) (now : Nat)
    (h : svc.getCachedData = none) :
    getGoldPrice svc now = .ok
      { status := 503
        body := .failure false "Gold price data not available"
          "Service is initializing, please try again in a moment" none
        calls := [.getCachedData] } := by
  simp only [getGoldPrice, getGoldPriceBody, h, tryCatchJs, pure, Except.pure]

theorem priceNextUpdateIn_of_record (svc : GoldPriceService) (now : Nat) (record : PriceRecord)
    (h : svc.getCachedData = some record) :
    priceNextUpdateIn (getGoldPrice svc now) =
      some (mathMax 0 (jsSub (some 5) svc.getTimeSinceLastUpdate)) := by
  rw [getGoldPrice_of_record svc now record h]
  rfl

theorem statusNextUpdateIn_eq (svc : GoldPriceService) :
    statusNextUpdateIn (getStatus svc) =
      some (mathMax 0 (jsSub (some 5) (jsOr svc.getTimeSinceLastUpdate (some 0)))) :=
  rfl

/-- The two spellings of the remaining time agree on every number and on `null`. -/
theorem jsSub_jsOr_zero (t : Option ℚ) :
    jsSub (some 5) (jsOr t (some 0)) = jsSub (some 5) t := by
  cases t with
  | none => simp [jsOr, truthy, jsSub, toNumber]
  | some q =>
    by_cases hq : q = 0
    · simp [jsOr, truthy, jsSub, toNumber, hq]
    · simp [jsOr, truthy, jsSub, toNumber, hq]

theorem jsSub_five_some (t : ℚ) : jsSub (some 5) (some t) = 5 - t := by
  simp [jsSub, toNumber]

/-! ## Lemmas: the schedule -/

theorem cronFires_nextFiring (q : Nat) : cronFires (nextFiring q) = true := by
  simp [cronFires, nextFiring]

theorem lt_nextFiring (q : Nat) : q < nextFiring q := by
  unfold nextFiring cronPeriodMs
  omega

theorem nextFiring_le (q m : Nat) (hqm : q < m) (hm : cronFires m = true) :
    nextFiring q ≤ m := by
  unfold cronFires at hm
  unfold nextFiring
  unfold cronPeriodMs at *
  simp only [beq_iff_eq] at hm
  omega

theorem nextFiring_of_fires (t q : Nat) (ht : cronFires t = true) (h1 : t ≤ q)
    (h2 : q < t + cronPeriodMs) : nextFiring q = t + cronPeriodMs := by
  unfold cronFires at ht
  unfold nextFiring
  unfold cronPeriodMs at *
  simp only [beq_iff_eq] at ht
  omega

/-! ## Theorems: the handlers -/

/-- C1 (fails on the code): when `updateCache()` rejects with `e`, the scheduled callback's own
promise rejects with the same `e`, because the callback awaits it outside any `try`; the manual
update route, given the same rejection, completes normally with a response. -/
theorem cronCallback_rejects (e : JsError) :
    cronCallback (.error e) = .error e ∧
      (¬ ∃ u, cronCallback (.error e) = .ok u) ∧
      ∃ r, postGoldPriceUpdate (.error e) = .ok r := by
  refine ⟨rfl, ?_, ⟨_, rfl⟩⟩
  rintro ⟨u, hu⟩
  cases hu

/-- C3: the handler of `POST /api/gold-price/update` always completes normally with a response;
the response is 500 with body `success: false, error: 'Failed to update gold price', message:
e.message` exactly when `updateCache()` failed (with `e`), and otherwise it is 200 with
`success: true` and `data` the value of `getCachedData()` read after `updateCache()` completed. -/
theorem postGoldPriceUpdate_responds (u : Except JsError GoldPriceService) :
    ∃ r, postGoldPriceUpdate u = .ok r ∧
      ((r.status = 500 ↔ ∃ e, u = .error e) ∧
       (∀ e, u = .error e →
          r.status = 500 ∧
            r.body = .failure false "Failed to update gold price" e.message none) ∧
       (∀ svc, u = .ok svc →
          r.status = 200 ∧
            r.body = .price true svc.getCachedData none
              (some "Gold price updated successfully") ∧
            r.calls = [.updateCache, .getCachedData])) := by
  cases u with
  | error e =>
    refine ⟨_, rfl, ⟨fun _ => ⟨e, rfl⟩, fun _ => rfl⟩, ?_, ?_⟩
    · intro e2 h
      cases h
      exact ⟨rfl, rfl⟩
    · intro svc h
      cases h
  | ok svc =>
    refine ⟨_, rfl, ⟨?_, ?_⟩, ?_, ?_⟩
    · intro h
      simp at h
    · rintro ⟨e, h⟩
      cases h
    · intro e h
      cases h
    · intro svc2 h
      cases h
      exact ⟨rfl, rfl, rfl⟩

/-- C4: `startServer` calls `app.listen` (on port 3000) exactly when the first fetch succeeded,
and then only after that fetch settled; when it failed, `app.listen` is never called and the last
step is `process.exit(1)`. -/
theorem startServer_listens_iff (init : Except JsError Unit) :
    ((StartupStep.listen PORT ∈ startServer init) ↔ ∃ u, init = .ok u) ∧
      PORT = 3000 ∧
      (∀ port, StartupStep.listen port ∈ startServer init →
          port = 3000 ∧
            (startServer init).indexOf (StartupStep.initSettled true) <
              (startServer init).indexOf (StartupStep.listen port)) ∧
      (∀ e, init = .error e →
          (∀ port, StartupStep.listen port ∉ startServer init) ∧
            (startServer init).getLast? = some (StartupStep.processExit 1)) := by
  cases init with
  | error e =>
    refine ⟨⟨?_, ?_⟩, rfl, ?_, ?_⟩
    · intro h
      simp [startServer] at h
    · rintro ⟨u, h⟩
      cases h
    · intro port h
      simp [startServer] at h
    · intro e2 h
      cases h
      refine ⟨?_, rfl⟩
      intro port h
      simp [startServer] at h
  | ok u =>
    refine ⟨⟨fun _ => ⟨u, rfl⟩, fun _ => ?_⟩, rfl, ?_, ?_⟩
    · simp [startServer]
    · intro port h
      simp only [startServer, List.mem_cons, List.mem_singleton, List.not_mem_nil, or_false,
        StartupStep.listen.injEq, false_or, reduceCtorEq] at h
      subst h
      cases u
      exact ⟨rfl, by decide⟩
    · intro e h
      cases h

/-- C6: when `getCachedData()` returns absent, `GET /api/gold-price` completes normally with 503
and body `success: false, error: 'Gold price data not available'`, and `getTimeSinceLastUpdate()`
is not called; when `getCachedData()` returns a record, it completes with 200, `success: true` and
`data` equal to that record. -/
theorem getGoldPrice_absent_or_record (svc : GoldPriceService) (now : Nat) :
    (svc.getCachedData = none →
        ∃ r, getGoldPrice svc now = .ok r ∧ r.status = 503 ∧ r.status ≠ 500 ∧
          r.body = .failure false "Gold price data not available"
            "Service is initializing, please try again in a moment" none ∧
          ServiceCall.getTimeSinceLastUpdate ∉ r.calls) ∧
      (∀ record, svc.getCachedData = some record →
        ∃ r info, getGoldPrice svc now = .ok r ∧ r.status = 200 ∧
          r.body = .price true (some record) (some info) none) := by
  constructor
  · intro h
    exact ⟨_, getGoldPrice_of_absent svc now h, rfl, by decide, rfl, by decide⟩
  · intro record h
    exact ⟨_, _, getGoldPrice_of_record svc now record h, rfl, rfl⟩

/-- C7: `GET /api/status` reports status `operational` and cacheStatus `warm` exactly when
`getCachedData()` returns a record, and otherwise `initializing`, `cold` and a null currentPrice;
with no cached data and an unknown time since the last update it also reports `nextUpdateIn = 5`;
it always completes normally. -/
theorem getStatus_reports (svc : GoldPriceService) :
    ∃ r, getStatus svc = .ok r ∧
      ((r.body.status = "operational" ∧ r.body.cacheStatus = "warm") ↔
          ∃ record, svc.getCachedData = some record) ∧
      (svc.getCachedData = none →
          r.body.status = "initializing" ∧ r.body.cacheStatus = "cold" ∧
            r.body.currentPrice = none) ∧
      (svc.getCachedData = none → svc.getTimeSinceLastUpdate = none →
          r.body.nextUpdateIn = 5) := by
  refine ⟨_, rfl, ?_, ?_, ?_⟩
  · cases h : svc.getCachedData with
    | none => simp [h]
    | some record => simp [h]
  · intro h
    simp [h]
  · intro _ h
    simp [h, jsOr, truthy, jsSub, toNumber, mathMax]

/-! ## Theorems: the remaining time -/

/-- C8: for every elapsed time `t ≥ 0` returned by `getTimeSinceLastUpdate()`, both endpoints
report `nextUpdateIn = max 0 (5 - t)`; the value lies between 0 and 5, is 0 once `t ≥ 5`, and for a
later elapsed time `t2 ≥ t` the reported value is not larger. -/
theorem nextUpdateIn_clamped (record : PriceRecord) (cached : Option PriceRecord)
    (lastUpdated : Option Nat) (now : Nat) (t t2 : ℚ) (ht : 0 ≤ t) (htt : t ≤ t2) :
    ∃ n n2 : ℚ,
      priceNextUpdateIn (getGoldPrice ⟨some record, some t, lastUpdated⟩ now) = some n ∧
      statusNextUpdateIn (getStatus ⟨cached, some t, lastUpdated⟩) = some n ∧
      priceNextUpdateIn (getGoldPrice ⟨some record, some t2, lastUpdated⟩ now) = some n2 ∧
      statusNextUpdateIn (getStatus ⟨cached, some t2, lastUpdated⟩) = some n2 ∧
      n = max 0 (5 - t) ∧ 0 ≤ n ∧ n ≤ 5 ∧ n2 ≤ n ∧ (5 ≤ t → n = 0) := by
  refine ⟨max 0 (5 - t), max 0 (5 - t2), ?_, ?_, ?_, ?_, rfl, ?_, ?_, ?_, ?_⟩
  · rw [priceNextUpdateIn_of_record _ now record rfl, jsSub_five_some]
    rfl
  · rw [statusNextUpdateIn_eq, jsSub_jsOr_zero, jsSub_five_some]
    rfl
  · rw [priceNextUpdateIn_of_record _ now record rfl, jsSub_five_some]
    rfl
  · rw [statusNextUpdateIn_eq, jsSub_jsOr_zero, jsSub_five_some]
    rfl
  · exact le_max_left _ _
  · exact max_le (by norm_num) (by linarith)
  · exact max_le_max (le_refl _) (by linarith)
  · intro h
    exact max_eq_left (by linarith)

/-- Instance of C8 at `t = t2 = 12`: both endpoints report `nextUpdateIn = 0`. -/
theorem nextUpdateIn_clamped_witness :
    (0 : ℚ) ≤ 12 ∧ (12 : ℚ) ≤ 12 ∧
      priceNextUpdateIn (getGoldPrice ⟨some ⟨2000, 0⟩, some 12, some 0⟩ 720000) = some 0 ∧
      statusNextUpdateIn (getStatus ⟨some ⟨2000, 0⟩, some 12, some 0⟩) = some 0 := by
  obtain ⟨n, n2, h1, h2, _, _, _, _, _, _, h9⟩ :=
    nextUpdateIn_clamped ⟨2000, 0⟩ (some ⟨2000, 0⟩) (some 0) 720000 12 12 (by norm_num)
      (le_refl _)
  have hn : n = 0 := h9 (by norm_num)
  subst hn
  exact ⟨by norm_num, le_refl _, h1, h2⟩

/-- C9 as stated fails.  After a manual update stored at minute 2, a query at minute 3 gets
`nextUpdateIn = 4` from both endpoints while the schedule next fires 2 minutes later; after a
scheduled update stored at minute 5 and a failed one at minute 10, a query at minute 12 gets 0
while the schedule next fires 3 minutes later. -/
theorem nextUpdateIn_not_schedule :
    (120000 ≤ 180000 ∧
      priceNextUpdateIn
          (getGoldPrice
            ((Sys.run Sys.initial
              [.refresh .postUpdate, .settled (.payload (some 2000)) 120000]).cache.view 180000)
            180000) = some 4 ∧
      statusNextUpdateIn
          (getStatus
            ((Sys.run Sys.initial
              [.refresh .postUpdate, .settled (.payload (some 2000)) 120000]).cache.view
                180000)) = some 4 ∧
      minutesUntilNextFiring 180000 = 2 ∧ (4 : ℚ) ≠ 2) ∧
    (300000 ≤ 720000 ∧
      priceNextUpdateIn
          (getGoldPrice
            ((Sys.run Sys.initial
              [.refresh .cronTick, .settled (.payload (some 2000)) 300000,
                .refresh .cronTick, .settled (.networkError "timeout") 600000]).cache.view
                720000)
            720000) = some 0 ∧
      statusNextUpdateIn
          (getStatus
            ((Sys.run Sys.initial
              [.refresh .cronTick, .settled (.payload (some 2000)) 300000,
                .refresh .cronTick, .settled (.networkError "timeout") 600000]).cache.view
                720000)) = some 0 ∧
      minutesUntilNextFiring 720000 = 3 ∧ (0 : ℚ) ≠ 3) := by
  have hrun1 : (Sys.run Sys.initial
      [.refresh .postUpdate, .settled (.payload (some 2000)) 120000]).cache =
      PriceCache.warm ⟨2000, 120000⟩ 120000 := by
    simp [Sys.run, Sys.step, Sys.initial, PriceCache.empty, PriceCache.requestRefresh,
      PriceCache.settle, fetchGoldPrice, PriceCache.warm]
  have hrun2 : (Sys.run Sys.initial
      [.refresh .cronTick, .settled (.payload (some 2000)) 300000,
        .refresh .cronTick, .settled (.networkError "timeout") 600000]).cache =
      PriceCache.warm ⟨2000, 300000⟩ 300000 := by
    simp [Sys.run, Sys.step, Sys.initial, PriceCache.empty, PriceCache.requestRefresh,
      PriceCache.settle, fetchGoldPrice, PriceCache.warm]
  rw [hrun1, hrun2]
  refine ⟨⟨by decide, ?_, ?_, ?_, by norm_num⟩, ⟨by decide, ?_, ?_, ?_, by norm_num⟩⟩
  · rw [priceNextUpdateIn_of_record _ _ ⟨2000, 120000⟩ rfl]
    norm_num [PriceCache.view, PriceCache.warm, PriceCache.getTimeSinceLastUpdate, jsSub,
      toNumber, mathMax]
  · rw [statusNextUpdateIn_eq, jsSub_jsOr_zero]
    norm_num [PriceCache.view, PriceCache.warm, PriceCache.getTimeSinceLastUpdate, jsSub,
      toNumber, mathMax]
  · norm_num [minutesUntilNextFiring, nextFiring, cronPeriodMs]
  · rw [priceNextUpdateIn_of_record _ _ ⟨2000, 300000⟩ rfl]
    norm_num [PriceCache.view, PriceCache.warm, PriceCache.getTimeSinceLastUpdate, jsSub,
      toNumber, mathMax]
  · rw [statusNextUpdateIn_eq, jsSub_jsOr_zero]
    norm_num [PriceCache.view, PriceCache.warm, PriceCache.getTimeSinceLastUpdate, jsSub,
      toNumber, mathMax]
  · norm_num [minutesUntilNextFiring, nextFiring, cronPeriodMs]

/-- C9 (amended): for a cache last stored at the instant `T` and queried at `Q ≥ T`, both
endpoints report `nextUpdateIn = max 0 (5 - (Q - T) / 60000)`, the minutes from `Q` until five
minutes after `T`, never below 0; when `T` is itself a firing instant of the schedule and
`Q < T + 5 min`, this is the number of minutes from `Q` until the next firing. -/
theorem nextUpdateIn_schedule_aligned (record : PriceRecord) (T Q : Nat) (hTQ : T ≤ Q) :
    priceNextUpdateIn (getGoldPrice ((PriceCache.warm record T).view Q) Q) =
        some (max 0 (5 - ((Q : ℚ) - (T : ℚ)) / 60000)) ∧
      statusNextUpdateIn (getStatus ((PriceCache.warm record T).view Q)) =
        some (max 0 (5 - ((Q : ℚ) - (T : ℚ)) / 60000)) ∧
      (cronFires T = true → Q < T + cronPeriodMs →
        max 0 (5 - ((Q : ℚ) - (T : ℚ)) / 60000) = minutesUntilNextFiring Q) := by
  refine ⟨?_, ?_, ?_⟩
  · rw [priceNextUpdateIn_of_record _ _ record rfl]
    simp [PriceCache.view, PriceCache.warm, PriceCache.getTimeSinceLastUpdate, jsSub,
      toNumber, mathMax]
  · rw [statusNextUpdateIn_eq, jsSub_jsOr_zero]
    simp [PriceCache.view, PriceCache.warm, PriceCache.getTimeSinceLastUpdate, jsSub,
      toNumber, mathMax]
  · intro hT hQ
    have hnext := nextFiring_of_fires T Q hT hTQ hQ
    have hQ2 : (Q : ℚ) < (T : ℚ) + 300000 := by
      have : Q < T + 300000 := by simpa [cronPeriodMs] using hQ
      exact_mod_cast this
    unfold minutesUntilNextFiring
    rw [hnext]
    have hpos : (0 : ℚ) ≤ 5 - ((Q : ℚ) - (T : ℚ)) / 60000 := by
      rw [sub_nonneg, div_le_iff₀ (by norm_num)]
      linarith
    rw [max_eq_right hpos]
    simp only [cronPeriodMs]
    push_cast
    ring

/-- Instance of the amended C9: stored at minute 5, queried at minute 7, both endpoints report 3,
which is the time until the firing at minute 10. -/
theorem nextUpdateIn_schedule_aligned_witness :
    300000 ≤ 420000 ∧ cronFires 300000 = true ∧ 420000 < 300000 + cronPeriodMs ∧
      priceNextUpdateIn
          (getGoldPrice ((PriceCache.warm ⟨2000, 300000⟩ 300000).view 420000) 420000) =
        some (minutesUntilNextFiring 420000) ∧
      minutesUntilNextFiring 420000 = 3 := by
  have h := nextUpdateIn_schedule_aligned ⟨2000, 300000⟩ 300000 420000 (by decide)
  have h3 := h.2.2 (by decide) (by decide)
  refine ⟨by decide, by decide, by decide, ?_, ?_⟩
  · rw [h.1, h3]
  · norm_num [minutesUntilNextFiring, nextFiring, cronPeriodMs]

/-- C10: whenever cached data is present, for every value `getTimeSinceLastUpdate()` returns (a
number, 0 included, or `null`), `GET /api/gold-price` and `GET /api/status` report the same
`lastUpdated`, the same `timeSinceLastUpdate` and the same `nextUpdateIn`: the expressions
`Math.max(0, 5 - t)` and `Math.max(0, 5 - (t || 0))` agree. -/
theorem endpoints_agree (svc : GoldPriceService) (now : Nat) (record : PriceRecord)
    (h : svc.getCachedData = some record) :
    ∃ r info b,
      getGoldPrice svc now = .ok r ∧ r.body = .price true (some record) (some info) none ∧
      getStatus svc = .ok b ∧
      info.lastUpdated = b.body.lastUpdated ∧
      info.timeSinceLastUpdate = b.body.timeSinceLastUpdate ∧
      info.nextUpdateIn = b.body.nextUpdateIn ∧
      mathMax 0 (jsSub (some 5) svc.getTimeSinceLastUpdate) =
        mathMax 0 (jsSub (some 5) (jsOr svc.getTimeSinceLastUpdate (some 0))) := by
  refine ⟨_, _, _, getGoldPrice_of_record svc now record h, rfl, rfl, rfl, rfl, ?_, ?_⟩
  · show mathMax 0 (jsSub (some 5) svc.getTimeSinceLastUpdate) =
      mathMax 0 (jsSub (some 5) (jsOr svc.getTimeSinceLastUpdate (some 0)))
    rw [jsSub_jsOr_zero]
  · rw [jsSub_jsOr_zero]

/-- Instance of C10 with data present and an unknown (`null`) elapsed time: both report 5. -/
theorem endpoints_agree_witness :
    mathMax 0 (jsSub (some 5) none) = mathMax 0 (jsSub (some 5) (jsOr none (some 0))) ∧
      priceNextUpdateIn (getGoldPrice ⟨some ⟨2000, 0⟩, none, none⟩ 0) =
        statusNextUpdateIn (getStatus ⟨some ⟨2000, 0⟩, none, none⟩) := by
  obtain ⟨r, info, b, h1, h2, h3, _, _, h6, h7⟩ :=
    endpoints_agree ⟨some ⟨2000, 0⟩, none, none⟩ 0 ⟨2000, 0⟩ rfl
  refine ⟨h7, ?_⟩
  rw [h1, h3]
  cases r with
  | mk status body calls =>
    simp only at h2
    subst h2
    simp [priceNextUpdateIn, statusNextUpdateIn, h6]

/-! ## Lemmas: invariants of the process -/

theorem Sys.guardExact_initial : Sys.initial.GuardExact := by
  simp [Sys.GuardExact, Sys.initial, PriceCache.empty]

theorem Sys.guardExact_step (s : Sys) (e : Event) (h : s.GuardExact) :
    (s.step e).GuardExact := by
  unfold Sys.GuardExact at *
  cases e with
  | refresh origin =>
    cases hf : s.cache.inFlight with
    | true => simp [Sys.step, PriceCache.requestRefresh, hf] at h ⊢; exact h
    | false => simp [Sys.step, PriceCache.requestRefresh, hf] at h ⊢; exact h
  | settled reply now =>
    by_cases h0 : s.upstreamActive = 0
    · simp [Sys.step, h0] at h ⊢
      exact h
    · have h1 : s.upstreamActive = 1 := by
        cases hf : s.cache.inFlight with
        | true => simpa [hf] using h
        | false => simp [hf] at h; exact absurd h h0
      cases hfetch : fetchGoldPrice reply now with
      | ok record => simp [Sys.step, h1, PriceCache.settle, hfetch]
      | error err => simp [Sys.step, h1, PriceCache.settle, hfetch]

theorem Sys.guardExact_run (events : List Event) (s : Sys) (h : s.GuardExact) :
    (s.run events).GuardExact := by
  induction events generalizing s with
  | nil => exact h
  | cons e rest ih => exact ih (s.step e) (Sys.guardExact_step s e h)

theorem Sys.paired_initial : Sys.initial.Paired := by
  simp [Sys.Paired, Sys.initial, PriceCache.empty]

theorem Sys.paired_step (s : Sys) (e : Event) (h : s.Paired) : (s.step e).Paired := by
  cases e with
  | refresh origin =>
    have hstate : (s.step (.refresh origin)).cache.state = s.cache.state := by
      cases hf : s.cache.inFlight <;> simp [Sys.step, PriceCache.requestRefresh, hf]
    have hfetches : (s.step (.refresh origin)).fetches = s.fetches := by
      cases hf : s.cache.inFlight <;> simp [Sys.step, PriceCache.requestRefresh, hf]
    unfold Sys.Paired at *
    rw [hstate, hfetches]
    exact h
  | settled reply now =>
    by_cases h0 : s.upstreamActive = 0
    · simpa [Sys.step, h0] using h
    · cases hfetch : fetchGoldPrice reply now with
      | ok record => simp [Sys.Paired, Sys.step, h0, PriceCache.settle, hfetch]
      | error err =>
        have hstate : (s.step (.settled reply now)).cache.state = s.cache.state := by
          simp [Sys.step, h0, PriceCache.settle, hfetch]
        have hfetches : (s.step (.settled reply now)).fetches = s.fetches := by
          simp [Sys.step, h0, hfetch]
        unfold Sys.Paired at *
        rw [hstate, hfetches]
        exact h

theorem Sys.paired_run (events : List Event) (s : Sys) (h : s.Paired) :
    (s.run events).Paired := by
  induction events generalizing s with
  | nil => exact h
  | cons e rest ih => exact ih (s.step e) (Sys.paired_step s e h)

/-! ## Theorems: the process -/

/-- C2: after every interleaving of refresh requests (scheduled, manual, startup) and upstream
completions, at most one upstream call is outstanding, and a refresh request arriving while one is
outstanding launches no further upstream call, whoever asks. -/
theorem single_flight (events : List Event) (origin : Origin) :
    (Sys.run Sys.initial events).upstreamActive ≤ 1 ∧
      ((Sys.run Sys.initial events).upstreamActive = 1 →
        ((Sys.run Sys.initial events).step (.refresh origin)).upstreamStarted =
            (Sys.run Sys.initial events).upstreamStarted ∧
          ((Sys.run Sys.initial events).step (.refresh origin)).upstreamActive = 1) ∧
      ((Sys.run Sys.initial events).upstreamActive = 0 →
        ((Sys.run Sys.initial events).step (.refresh origin)).upstreamStarted =
            (Sys.run Sys.initial events).upstreamStarted + 1 ∧
          ((Sys.run Sys.initial events).step (.refresh origin)).upstreamActive = 1) := by
  have h := Sys.guardExact_run events Sys.initial Sys.guardExact_initial
  generalize Sys.run Sys.initial events = s at h
  unfold Sys.GuardExact at h
  cases hf : s.cache.inFlight with
  | true =>
    rw [hf] at h
    simp only [if_true] at h
    simp [Sys.step, PriceCache.requestRefresh, hf, h]
  | false =>
    rw [hf] at h
    simp only [Bool.false_eq_true, if_false] at h
    simp [Sys.step, PriceCache.requestRefresh, hf, h]

/-- Instance of C2: the startup fetch is in flight when a scheduled tick and a manual update ask
for a refresh; one upstream call was launched and one is outstanding. -/
theorem single_flight_witness :
    (Sys.run Sys.initial [.refresh .startup, .refresh .cronTick]).upstreamActive = 1 ∧
      ((Sys.run Sys.initial [.refresh .startup, .refresh .cronTick]).step
          (.refresh .postUpdate)).upstreamStarted = 1 := by
  have h := single_flight [.refresh .startup, .refresh .cronTick] .postUpdate
  have hactive :
      (Sys.run Sys.initial [.refresh .startup, .refresh .cronTick]).upstreamActive = 1 := by
    decide
  refine ⟨hactive, ?_⟩
  rw [(h.2.1 hactive).1]
  decide

/-- C5: a successful `GET /api/gold-price` response takes `data` and `meta.lastUpdated` from one
and the same cache state, whatever that state is; and when the state is the one reached after an
interleaving of refresh requests and upstream completions, the two are the record and the instant
of the same fetch, the latest successful one. -/
theorem getGoldPrice_same_fetch (events : List Event) (c : PriceCache) (now : Nat)
    (r : Served PriceBody) (hr : getGoldPrice (c.view now) now = .ok r)
    (h200 : r.status = 200) :
    ∃ record info,
      r.body = .price true (some record) (some info) none ∧
      c.state.current = some record ∧
      info.lastUpdated = c.state.lastUpdated ∧
      (c = (Sys.run Sys.initial events).cache →
        ∃ stored,
          info.lastUpdated = some stored ∧
          (Sys.run Sys.initial events).fetches.head? = some (record, stored)) := by
  cases hc : c.state.current with
  | none =>
    have hnone : (c.view now).getCachedData = none := by
      simp [PriceCache.view, PriceCache.getCachedData, hc]
    rw [getGoldPrice_of_absent _ now hnone] at hr
    cases hr
    simp at h200
  | some record =>
    have hsome : (c.view now).getCachedData = some record := by
      simp [PriceCache.view, PriceCache.getCachedData, hc]
    rw [getGoldPrice_of_record _ now record hsome] at hr
    cases hr
    refine ⟨record, _, rfl, rfl, rfl, ?_⟩
    intro hreach
    have hp := Sys.paired_run events Sys.initial Sys.paired_initial
    unfold Sys.Paired at hp
    cases hh : (Sys.run Sys.initial events).fetches.head? with
    | none =>
      rw [hh] at hp
      simp only at hp
      rw [← hreach, CacheState.mk.injEq] at hp
      rw [hp.1] at hc
      cases hc
    | some pair =>
      obtain ⟨record2, stored⟩ := pair
      rw [hh] at hp
      simp only at hp
      rw [← hreach, CacheState.mk.injEq] at hp
      rw [hp.1] at hc
      cases hc
      exact ⟨stored, by simp [PriceCache.view, hp.2], rfl⟩

/-- Instance of C5: a successful fetch, then a failed one, then a successful one while a request
is served in between the completions. -/
theorem getGoldPrice_same_fetch_witness :
    ∃ r record info,
      getGoldPrice
          ((Sys.run Sys.initial
            [.refresh .startup, .settled (.payload (some 2000)) 1000,
              .refresh .cronTick, .settled (.payload (some (-5))) 300000,
              .refresh .postUpdate, .settled (.payload (some 2010)) 310000,
              .refresh .cronTick]).cache.view 320000) 320000 = .ok r ∧
        r.status = 200 ∧
        r.body = .price true (some record) (some info) none ∧
        info.lastUpdated = some 310000 ∧ record = ⟨2010, 310000⟩ := by
  have hrun :
      getGoldPrice
          ((Sys.run Sys.initial
            [.refresh .startup, .settled (.payload (some 2000)) 1000,
              .refresh .cronTick, .settled (.payload (some (-5))) 300000,
              .refresh .postUpdate, .settled (.payload (some 2010)) 310000,
              .refresh .cronTick]).cache.view 320000) 320000 =
        .ok
          { status := 200
            body := .price true (some ⟨2010, 310000⟩)
              (some
                { lastUpdated := some 310000
                  timeSinceLastUpdate := some (1 / 6)
                  nextUpdateIn := 29 / 6
                  source := "Yahoo Finance API (Cached)" })
              none
            calls := [.getCachedData, .getTimeSinceLastUpdate, .lastUpdated] } := by
    rw [getGoldPrice_of_record _ _ ⟨2010, 310000⟩ (by
      norm_num [Sys.run, Sys.step, Sys.initial, PriceCache.empty, PriceCache.requestRefresh,
        PriceCache.settle, fetchGoldPrice, PriceCache.view, PriceCache.getCachedData])]
    norm_num [Sys.run, Sys.step, Sys.initial, PriceCache.empty, PriceCache.requestRefresh,
      PriceCache.settle, fetchGoldPrice, PriceCache.view, PriceCache.getTimeSinceLastUpdate,
      jsSub, toNumber, mathMax]
  obtain ⟨record, info, hb, _, _, hreach⟩ :=
    getGoldPrice_same_fetch
      [.refresh .startup, .settled (.payload (some 2000)) 1000,
        .refresh .cronTick, .settled (.payload (some (-5))) 300000,
        .refresh .postUpdate, .settled (.payload (some 2010)) 310000,
        .refresh .cronTick] _ 320000 _ hrun rfl
  obtain ⟨stored, hl, hf⟩ := hreach rfl
  have hf2 : (Sys.run Sys.initial
        [.refresh .startup, .settled (.payload (some 2000)) 1000,
          .refresh .cronTick, .settled (.payload (some (-5))) 300000,
          .refresh .postUpdate, .settled (.payload (some 2010)) 310000,
          .refresh .cronTick]).fetches.head? = some (⟨2010, 310000⟩, 310000) := by
    norm_num [Sys.run, Sys.step, Sys.initial, PriceCache.empty, PriceCache.requestRefresh,
      PriceCache.settle, fetchGoldPrice]
  rw [hf2] at hf
  have hpair := Option.some.inj hf
  simp only [Prod.mk.injEq] at hpair
  exact ⟨_, record, info, hrun, rfl, hb, by rw [hl, ← hpair.2], hpair.1.symm⟩

end GoldPrice
